import Mathlib

/-!
Verification of the failure-report extraction engine (`trial.py`,
`parse_single_file`) against its specification.  The regex patterns of the
source are embedded as executable character-list matchers with Python
`re.search` semantics (leftmost match, greedy quantifiers); the pipeline
(block indexer, failure scanner, context capturer, orphan reconciler,
deduplicator/aggregator) is embedded as pure functions over an explicit
document structure.
-/

set_option autoImplicit false

namespace CucumberReports

/-- Python `\s` whitespace class (ASCII part, sufficient for report text). -/
def isPySpace (c : Char) : Bool :=
  c = ' ' || c = '\t' || c = '\n' || c = '\r' || c = '\x0b' || c = '\x0c'

/-- Python `\w` word-character class (ASCII part), used for `\b` boundaries. -/
def isWordChar (c : Char) : Bool :=
  c.isAlphanum || c = '_'

/-- Python falsiness of `line.strip()`: every character is whitespace. -/
def pyBlank (s : String) : Bool := s.data.all isPySpace

/-- Case-insensitive literal match at the head of `cs` (the `re.IGNORECASE`
flag applied to a literal); returns the consumed original text and the rest. -/
def ciLit : List Char → List Char → Option (List Char × List Char)
  | [], cs => some ([], cs)
  | _ :: _, [] => none
  | p :: ps, c :: cs =>
    if c.toLower = p.toLower then
      (ciLit ps cs).map (fun pr => (c :: pr.1, pr.2))
    else none

/-! ### Identifier patterns

`TEST_CASE_PATTERN = \b([A-Z]+-[A-Z]*\d+)\b` and
`ADDITIONAL_PATTERN = \b([A-Z]{2,}-[A-Z]*\d+)\b` (both `re.IGNORECASE`)
differ only in the minimum length of the leading letter run, so they share
one parametrised matcher.  Each quantifier in these patterns is followed by
a character from a disjoint class, so greedy matching needs no backtracking:
every run is the maximal one. -/

/-- Match `-[A-Z]*\d+` plus the trailing `\b` after the leading letter run of
`cs`; on success return group 1 (leading letters, hyphen, letters, digits). -/
def identTail (cs : List Char) : Option (List Char) :=
  match cs.dropWhile Char.isAlpha with
  | '-' :: r2 =>
    let ls2 := r2.takeWhile Char.isAlpha
    let r3 := r2.dropWhile Char.isAlpha
    let ds := r3.takeWhile Char.isDigit
    if ds.isEmpty then none
    else
      match r3.dropWhile Char.isDigit with
      | [] => some (cs.takeWhile Char.isAlpha ++ '-' :: (ls2 ++ ds))
      | c :: _ =>
        if isWordChar c then none
        else some (cs.takeWhile Char.isAlpha ++ '-' :: (ls2 ++ ds))
  | _ => none

/-- Match `[A-Z]{minLen,}-[A-Z]*\d+\b` at the start of `cs` (case-insensitive);
`minLen = 1` is `TEST_CASE_PATTERN`, `minLen = 2` is `ADDITIONAL_PATTERN`. -/
def identAt (minLen : Nat) (cs : List Char) : Option (List Char) :=
  if (cs.takeWhile Char.isAlpha).length < minLen then none else identTail cs

/-- `re.search` for the identifier patterns: try each start position from the
left; the leading `\b` holds iff the previous character (if any) is not a
word character (the match itself must start with a letter). -/
def identSearchAux (minLen : Nat) : Option Char → List Char → Option (List Char)
  | _, [] => none
  | prev, c :: rest =>
    let bOK := match prev with
      | none => true
      | some p => !isWordChar p
    if bOK then
      match identAt minLen (c :: rest) with
      | some g => some g
      | none => identSearchAux minLen (some c) rest
    else identSearchAux minLen (some c) rest

def identSearch (minLen : Nat) (s : String) : Option String :=
  (identSearchAux minLen none s.data).map String.mk

/-- Group 1 of `TEST_CASE_PATTERN.search(s)`. -/
def testCaseSearch (s : String) : Option String := identSearch 1 s

/-- Group 1 of `ADDITIONAL_PATTERN.search(s)`. -/
def additionalSearch (s : String) : Option String := identSearch 2 s

/-- Match `([A-Z]+-[A-Z]*\d+)\.feature` at the start of `cs`
(`FEATURE_LINE_PATTERN`, no word boundaries); returns group 1. -/
def featureAt (cs : List Char) : Option (List Char) :=
  let ls1 := cs.takeWhile Char.isAlpha
  if ls1.isEmpty then none
  else
    match cs.dropWhile Char.isAlpha with
    | '-' :: r2 =>
      let ls2 := r2.takeWhile Char.isAlpha
      let r3 := r2.dropWhile Char.isAlpha
      let ds := r3.takeWhile Char.isDigit
      if ds.isEmpty then none
      else
        match ciLit (".feature".data) (r3.dropWhile Char.isDigit) with
        | some _ => some (ls1 ++ '-' :: (ls2 ++ ds))
        | none => none
    | _ => none

def featureSearchAux : List Char → Option (List Char)
  | [] => none
  | c :: rest =>
    match featureAt (c :: rest) with
    | some g => some g
    | none => featureSearchAux rest

/-- Group 1 of `FEATURE_LINE_PATTERN.search(s)`. -/
def featureSearch (s : String) : Option String :=
  (featureSearchAux s.data).map String.mk

/-! ### URL pattern

`CUCUMBER_URL_PATTERN = (https?://[^\s"']+)`, `re.IGNORECASE`. -/

def isUrlChar (c : Char) : Bool := !(isPySpace c || c = '"' || c = '\'')

/-- Match `https?://[^\s"']+` at the start of `cs`; the greedy `s?` tries the
branch with `s` first, as the Python engine does. -/
def urlAt (cs : List Char) : Option (List Char) :=
  match ciLit ("http".data) cs with
  | none => none
  | some (h, r) =>
    let withS : Option (List Char) :=
      match r with
      | c :: r2 =>
        if c.toLower = 's' then
          match ciLit ("://".data) r2 with
          | some (m, r3) =>
            let b := r3.takeWhile isUrlChar
            if b.isEmpty then none else some (h ++ c :: (m ++ b))
          | none => none
        else none
      | [] => none
    match withS with
    | some g => some g
    | none =>
      match ciLit ("://".data) r with
      | some (m, r3) =>
        let b := r3.takeWhile isUrlChar
        if b.isEmpty then none else some (h ++ m ++ b)
      | none => none

def urlSearchAux : List Char → Option (List Char)
  | [] => none
  | c :: rest =>
    match urlAt (c :: rest) with
    | some g => some g
    | none => urlSearchAux rest

/-- Group 1 of `CUCUMBER_URL_PATTERN.search(s)`. -/
def urlSearch (s : String) : Option String :=
  (urlSearchAux s.data).map String.mk

/-! ### Failure-signal patterns -/

/-- Match `Expected\s*:\s*(\d+);\s*But it was\s*:(\d+)` (`ALT_FAILURE_PATTERN`)
at the start of `cs`, returning (group 1, group 2).  Every `\s*` and `\d+` is
followed by a character outside its class, so greedy runs are maximal with no
backtracking. -/
def altAt (cs : List Char) : Option (List Char × List Char) :=
  match ciLit ("expected".data) cs with
  | none => none
  | some (_, r1) =>
    match r1.dropWhile isPySpace with
    | ':' :: r3 =>
      let r4 := r3.dropWhile isPySpace
      let d1 := r4.takeWhile Char.isDigit
      if d1.isEmpty then none
      else
        match r4.dropWhile Char.isDigit with
        | ';' :: r5 =>
          match ciLit ("but it was".data) (r5.dropWhile isPySpace) with
          | none => none
          | some (_, r7) =>
            match r7.dropWhile isPySpace with
            | ':' :: r9 =>
              let d2 := r9.takeWhile Char.isDigit
              if d2.isEmpty then none else some (d1, d2)
            | _ => none
        | _ => none
    | _ => none

def altSearchAux : List Char → Option (List Char × List Char)
  | [] => none
  | c :: rest =>
    match altAt (c :: rest) with
    | some g => some g
    | none => altSearchAux rest

/-- `ALT_FAILURE_PATTERN.search(line)`: groups (1, 2). -/
def altMatch (s : String) : Option (String × String) :=
  (altSearchAux s.data).map (fun p => (String.mk p.1, String.mk p.2))

/-- Does `,\s*response:` match (case-insensitively) at the head of `cs`?
This is the part of `FAILURE_LINE_PATTERN` that follows the `(\S+)` group. -/
def respTail (cs : List Char) : Bool :=
  match cs with
  | ',' :: r => (ciLit ("response:".data) (r.dropWhile isPySpace)).isSome
  | _ => false

/-- Greedy `(\S+)` followed by `,\s*response:`: `run` is the maximal non-space
run; try prefixes of length `k, k-1, ..., 1` (the backtracking order of the
Python engine) until the tail matches at the cut. -/
def greedyUrlGroup : Nat → List Char → List Char → Option (List Char)
  | 0, _, _ => none
  | k + 1, run, rest =>
    if respTail (run.drop (k + 1) ++ rest) then some (run.take (k + 1))
    else greedyUrlGroup k run rest

/-- Match `(\d+),\s*` at the head of `cs`; returns the digit group and rest. -/
def numComma (cs : List Char) : Option (List Char × List Char) :=
  let ds := cs.takeWhile Char.isDigit
  if ds.isEmpty then none
  else
    match cs.dropWhile Char.isDigit with
    | ',' :: r => some (ds, r.dropWhile isPySpace)
    | _ => none

/-- Match `FAILURE_LINE_PATTERN` at the start of `cs`, returning
(group 2, group 3, group 5) = (status, expected, inline url); group 4
(response time) is matched but discarded, as the source never reads it. -/
def failAt (cs : List Char) : Option (List Char × List Char × List Char) :=
  match ciLit ("status code was:".data) cs with
  | none => none
  | some (_, r1) =>
    match numComma (r1.dropWhile isPySpace) with
    | none => none
    | some (d1, r3) =>
      match ciLit ("expected:".data) r3 with
      | none => none
      | some (_, r4) =>
        match numComma (r4.dropWhile isPySpace) with
        | none => none
        | some (d2, r6) =>
          match ciLit ("response time in milliseconds:".data) r6 with
          | none => none
          | some (_, r7) =>
            match numComma (r7.dropWhile isPySpace) with
            | none => none
            | some (_, r9) =>
              match ciLit ("url:".data) r9 with
              | none => none
              | some (_, r10) =>
                let r11 := r10.dropWhile isPySpace
                let run := r11.takeWhile (fun c => !isPySpace c)
                let rest := r11.dropWhile (fun c => !isPySpace c)
                match greedyUrlGroup run.length run rest with
                | none => none
                | some u => some (d1, d2, u)

def failSearchAux : List Char → Option (List Char × List Char × List Char)
  | [] => none
  | c :: rest =>
    match failAt (c :: rest) with
    | some g => some g
    | none => failSearchAux rest

/-- `FAILURE_LINE_PATTERN.search(line)`: (group 2, group 3, group 5). -/
def failMatch (s : String) : Option (String × String × String) :=
  (failSearchAux s.data).map (fun t => (String.mk t.1, String.mk t.2.1, String.mk t.2.2))

/-! ### Data model

The HTML-to-text collaborator (BeautifulSoup) is the out-of-scope boundary:
a document is its normalized view, namely the `div.element` blocks (with the
texts the source reads off each of them) and the flattened line sequence of
`soup.get_text(separator="\n", strip=True).splitlines()`. -/

/-- One `div.element` block.  `raw_text` is `element.get_text(" ", strip=True)`;
`output_texts` are the `div.output` texts in order; `text_lines` is
`element.get_text("\n", strip=True).splitlines()` (used for orphan context). -/
structure Block where
  raw_text : String
  output_texts : List String
  text_lines : List String
deriving DecidableEq

structure Doc where
  blocks : List Block
  lines : List String
deriving DecidableEq

structure FailureRecord where
  status_info : String
  testcase : String
  url : String
  error_analysis : String
deriving DecidableEq

/-- Python dict assignment `d[k] = v`: overwrite the value in place if the key
is present (keeping its position), otherwise append the new pair. -/
def dictSet : List (String × String) → String → String → List (String × String)
  | [], k, v => [(k, v)]
  | (k', v') :: rest, k, v =>
    if k' = k then (k', v) :: rest else (k', v') :: dictSet rest k v

/-- Python `k in d` / `d[k]` lookup on the association list. -/
def dictGet? : List (String × String) → String → Option String
  | [], _ => none
  | (k', v') :: rest, k => if k' = k then some v' else dictGet? rest k

/-! ### STEP 1: block indexer -/

/-- The identifier-extraction chain `FEATURE_LINE_PATTERN.search(t) or
TEST_CASE_PATTERN.search(t) or ADDITIONAL_PATTERN.search(t)`, group 1.  The
source repeats this chain verbatim at its three call sites (block indexing,
the proximity window, the orphan pass). -/
def extractCaseId (t : String) : Option String :=
  match featureSearch t with
  | some g => some g
  | none =>
    match testCaseSearch t with
    | some g => some g
    | none => additionalSearch t

/-- First `div.output` text containing a URL (the inner loop breaks at the
first hit). -/
def blockUrl (b : Block) : Option String :=
  b.output_texts.findSome? urlSearch

/-- Loop body of STEP 1: `if case_id and url: cucumber_urls[case_id] = url`
(`case_id` must be truthy, i.e. a nonempty match). -/
def indexStep (d : List (String × String)) (b : Block) : List (String × String) :=
  match extractCaseId b.raw_text, blockUrl b with
  | some cid, some url => if cid = "" then d else dictSet d cid url
  | _, _ => d

def buildIndex (blocks : List Block) : List (String × String) :=
  blocks.foldl indexStep []

/-! ### STEP 2: failure scanner and context capturer -/

/-- Indices of the proximity window `range(max(0, i - 5), min(len, i + 15))`
(`Nat` subtraction supplies the `max`). -/
def windowIdxs (len i : Nat) : List Nat :=
  List.range' (i - 5) (min len (i + 15) - (i - 5))

/-- The proximity search: first line of the window (in increasing index
order) where the identifier chain matches. -/
def findTestCase (lines : List String) (i : Nat) : Option String :=
  (windowIdxs lines.length i).findSome? (fun j => extractCaseId (lines.getD j ("")))

/-- Context capture: `range(max(0, i), min(len, i + 8))`, keeping lines whose
`strip()` is truthy. -/
def contextLines (lines : List String) (i : Nat) : List String :=
  ((List.range' i (min lines.length (i + 8) - i)).map
    (fun j => lines.getD j (""))).filter (fun l => !pyBlank l)

/-- Build the record for a failure signal at line `i` with matched groups
(`status`, `expected`, inline url or sentinel).  `testcase` is
`test_case_id or ""`; the indexed URL overrides the inline one when the
testcase is truthy and present in the index. -/
def mkScanRecord (index : List (String × String)) (lines : List String) (i : Nat)
    (status expected url0 : String) : FailureRecord :=
  let tc := (findTestCase lines i).getD ("")
  let url :=
    if tc = "" then url0
    else
      match dictGet? index tc with
      | some u => u
      | none => url0
  { status_info := ("HTTP ") ++ status ++ (" (expected ") ++ expected ++ (")")
  , testcase := tc
  , url := url
  , error_analysis := String.intercalate ("\n") (contextLines lines i) }

/-- One iteration of the STEP 2 loop: try `FAILURE_LINE_PATTERN`, then
`ALT_FAILURE_PATTERN` (whose group 1 is the expected and group 2 the observed
status, with no inline URL), else skip the line. -/
def scanLine (index : List (String × String)) (lines : List String) (i : Nat)
    (line : String) : Option FailureRecord :=
  match failMatch line with
  | some (st, ex, u) => some (mkScanRecord index lines i st ex u)
  | none =>
    match altMatch line with
    | some (exn, stn) => some (mkScanRecord index lines i stn exn ("URL Not Found"))
    | none => none

def scanFailures (index : List (String × String)) (lines : List String) :
    List FailureRecord :=
  lines.enum.filterMap (fun p => scanLine index lines p.1 p.2)

/-! ### STEP 3: orphan reconciler -/

/-- `{f["testcase"] for f in results if f["testcase"]}`. -/
def reportedOf (rs : List FailureRecord) : List String :=
  rs.filterMap (fun f => if f.testcase = "" then none else some f.testcase)

/-- Loop body of STEP 3 over one block; the state is the working record list
plus the `reported_testcases` set. -/
def orphanStep (index : List (String × String))
    (st : List FailureRecord × List String) (b : Block) :
    List FailureRecord × List String :=
  match extractCaseId b.raw_text with
  | some cid =>
    if cid ≠ "" ∧ cid ∉ st.2 then
      (st.1 ++
        [{ status_info := ("no status code")
         , testcase := cid
         , url := (dictGet? index cid).getD ("URL Not Found")
         , error_analysis := String.intercalate ("\n") (b.text_lines.take 12) }],
       cid :: st.2)
    else st
  | none => st

def addOrphans (index : List (String × String)) (blocks : List Block)
    (rs : List FailureRecord) : List FailureRecord :=
  (blocks.foldl (orphanStep index) (rs, reportedOf rs)).1

/-! ### STEP 4: deduplicator and aggregator -/

def dedupKey (f : FailureRecord) : String :=
  f.testcase ++ ("_") ++ f.status_info

/-- Loop body of STEP 4; the state is the `unique_failures` dict (as an
insertion-ordered association list) and the `failures_without_testcase`
list. -/
def dedupStep (st : List (String × FailureRecord) × List FailureRecord)
    (f : FailureRecord) : List (String × FailureRecord) × List FailureRecord :=
  if f.testcase = "" then (st.1, st.2 ++ [f])
  else
    if (st.1.find? (fun p => decide (p.1 = dedupKey f))).isSome then st
    else (st.1 ++ [(dedupKey f, f)], st.2)

def dedupPy (rs : List FailureRecord) :
    List (String × FailureRecord) × List FailureRecord :=
  rs.foldl dedupStep ([], [])

/-- `list(unique_failures.values())`. -/
def uniqueResults (rs : List FailureRecord) : List FailureRecord :=
  (dedupPy rs).1.map (fun p => p.2)

/-- `Counter` increment preserving first-encounter key order. -/
def countIncr : List (String × Nat) → String → List (String × Nat)
  | [], s => [(s, 1)]
  | (k, n) :: rest, s =>
    if k = s then (k, n + 1) :: rest else (k, n) :: countIncr rest s

/-- `Counter(f["status_info"] for f in unique_results)` as an ordered list. -/
def statusCounts (rs : List FailureRecord) : List (String × Nat) :=
  rs.foldl (fun acc f => countIncr acc f.status_info) []

structure ParseResult where
  total_unique : Nat
  status_summary : List (String × Nat)
  failures : List FailureRecord
deriving DecidableEq

/-- The return value of `parse_single_file`: note that it is built from
`unique_results` alone; the `failures_without_testcase` list computed by
STEP 4 is not part of it. -/
def dedupAggregate (rs : List FailureRecord) : ParseResult :=
  let uniq := uniqueResults rs
  { total_unique := uniq.length
  , status_summary := statusCounts uniq
  , failures := uniq }

def parse_single_file (doc : Doc) : ParseResult :=
  let index := buildIndex doc.blocks
  let scanned := scanFailures index doc.lines
  let results := addOrphans index doc.blocks scanned
  dedupAggregate results

/-! ## Claims -/

/-- C7: a document from which the normalization collaborator extracts no
blocks and no lines yields exactly
`{total_unique: 0, status_summary: {}, failures: []}`; the extraction is a
total function, so no error is raised and the batch is not aborted. -/
theorem C7_empty_document :
    parse_single_file { blocks := [], lines := [] } =
      { total_unique := 0, status_summary := [], failures := [] } := rfl

/-- C1 is violated by the code: for a document whose only line is the orphan
terse failure "Expected : 200; But it was :500" (no identifier anywhere), the
failure scan does produce the empty-testcase record, and STEP 4 does collect
it into `failures_without_testcase`, but the returned value is built from
`unique_results` alone, so the record is absent from `failures` and counted
neither in `total_unique` nor in `status_summary`. -/
theorem C1_empty_testcase_dropped :
    scanFailures (buildIndex [])
        [("Expected : 200; But it was :500")] =
      [{ status_info := ("HTTP 500 (expected 200)")
       , testcase := ("")
       , url := ("URL Not Found")
       , error_analysis := ("Expected : 200; But it was :500") }] ∧
    (dedupPy (scanFailures (buildIndex [])
        [("Expected : 200; But it was :500")])).2 =
      [{ status_info := ("HTTP 500 (expected 200)")
       , testcase := ("")
       , url := ("URL Not Found")
       , error_analysis := ("Expected : 200; But it was :500") }] ∧
    parse_single_file
        { blocks := [], lines := [("Expected : 200; But it was :500")] } =
      { total_unique := 0, status_summary := [], failures := [] } :=
  ⟨rfl, rfl, rfl⟩

/-- C2 as stated is false: when two blocks with urls yield the same
identifier, the index maps it to the URL of the *second* block
(`cucumber_urls[case_id] = url` overwrites), not the first. -/
theorem C2_counterexample :
    dictGet?
        (buildIndex
          [ { raw_text := ("TC-1 runs"), output_texts := [("go http://a/1 now")]
            , text_lines := [] }
          , { raw_text := ("TC-1 again"), output_texts := [("http://b/2")]
            , text_lines := [] } ])
        ("TC-1") = some ("http://b/2") ∧
    ("http://b/2") ≠ ("http://a/1") := by
  exact ⟨rfl, by decide⟩

theorem dictGet?_dictSet (d : List (String × String)) (k v q : String) :
    dictGet? (dictSet d k v) q = if q = k then some v else dictGet? d q := by
  induction d with
  | nil =>
    by_cases h : k = q
    · subst h; simp [dictGet?, dictSet]
    · have h' : ¬ q = k := fun hh => h hh.symm
      simp [dictGet?, dictSet, h, h']
  | cons hd tl ih =>
    obtain ⟨k', v'⟩ := hd
    simp only [dictSet]
    by_cases h1 : k' = k
    · subst h1
      rw [if_pos rfl]
      simp only [dictGet?]
      by_cases h2 : k' = q
      · subst h2; simp
      · have h2' : ¬ q = k' := fun hh => h2 hh.symm
        rw [if_neg h2, if_neg h2', if_neg h2]
    · rw [if_neg h1]
      simp only [dictGet?, ih]
      by_cases h2 : k' = q
      · subst h2
        rw [if_pos rfl, if_neg (fun hh : k' = k => h1 hh), if_pos rfl]
      · rw [if_neg h2]
        by_cases h3 : q = k
        · rw [if_pos h3, if_pos h3]
        · rw [if_neg h3, if_neg h3, if_neg h2]

/-- URL contributed for key `k` by one block, if any: the block yields an
identifier equal to `k` (and truthy) together with a URL. -/
def indexContrib (k : String) (b : Block) : Option String :=
  match extractCaseId b.raw_text, blockUrl b with
  | some cid, some url => if cid = "" then none else if cid = k then some url else none
  | _, _ => none

/-- Modelled from the spec sentence as amended by `C2_counterexample`: the
index maps an identifier to the URL of the *last* block (in document order)
that yields that identifier together with a URL. -/
def lastIndexedUrl (blocks : List Block) (k : String) : Option String :=
  (blocks.filterMap (indexContrib k)).getLast?

/-- C2 amended: for every identifier, the built IdentifierIndex holds the URL
of the last contributing block in document order — a later (identifier, url)
pair for the same identifier overwrites the earlier entry rather than being
discarded. -/
theorem C2_last_write_wins (blocks : List Block) (k : String) :
    dictGet? (buildIndex blocks) k = lastIndexedUrl blocks k := by
  induction blocks using List.reverseRecOn with
  | nil => rfl
  | append_singleton bs b ih =>
    unfold buildIndex lastIndexedUrl at ih ⊢
    rw [List.foldl_append, List.foldl_cons, List.foldl_nil,
      List.filterMap_append]
    cases h1 : extractCaseId b.raw_text with
    | none =>
      have hstep : indexStep (List.foldl indexStep [] bs) b =
          List.foldl indexStep [] bs := by
        unfold indexStep; rw [h1]
      have hcon : List.filterMap (indexContrib k) [b] = [] := by
        simp [List.filterMap_cons, indexContrib, h1]
      rw [hstep, hcon, List.append_nil]; exact ih
    | some cid =>
      cases h2 : blockUrl b with
      | none =>
        have hstep : indexStep (List.foldl indexStep [] bs) b =
            List.foldl indexStep [] bs := by
          unfold indexStep; rw [h1, h2]
        have hcon : List.filterMap (indexContrib k) [b] = [] := by
          simp [List.filterMap_cons, indexContrib, h1, h2]
        rw [hstep, hcon, List.append_nil]; exact ih
      | some url =>
        by_cases h3 : cid = ""
        · have hstep : indexStep (List.foldl indexStep [] bs) b =
              List.foldl indexStep [] bs := by
            unfold indexStep; rw [h1, h2]; exact if_pos h3
          have hcon : List.filterMap (indexContrib k) [b] = [] := by
            simp [List.filterMap_cons, indexContrib, h1, h2, h3]
          rw [hstep, hcon, List.append_nil]; exact ih
        · have hstep : indexStep (List.foldl indexStep [] bs) b =
              dictSet (List.foldl indexStep [] bs) cid url := by
            unfold indexStep; rw [h1, h2]; exact if_neg h3
          rw [hstep, dictGet?_dictSet]
          by_cases h4 : cid = k
          · subst h4
            have hcon : List.filterMap (indexContrib cid) [b] = [url] := by
              simp [List.filterMap_cons, indexContrib, h1, h2, h3]
            rw [if_pos rfl, hcon, List.getLast?_concat]
          · have hcon : List.filterMap (indexContrib k) [b] = [] := by
              simp [List.filterMap_cons, indexContrib, h1, h2, h3, h4]
            rw [if_neg (fun hh : k = cid => h4 hh.symm), hcon,
              List.append_nil]
            exact ih

/-! ### Scanner helper lemmas -/

theorem mkScanRecord_status_info (index : List (String × String))
    (lines : List String) (i : Nat) (st ex u0 : String) :
    (mkScanRecord index lines i st ex u0).status_info =
      ("HTTP ") ++ st ++ (" (expected ") ++ ex ++ (")") := rfl

theorem mkScanRecord_testcase (index : List (String × String))
    (lines : List String) (i : Nat) (st ex u0 : String) :
    (mkScanRecord index lines i st ex u0).testcase =
      (findTestCase lines i).getD ("") := rfl

theorem mkScanRecord_error_analysis (index : List (String × String))
    (lines : List String) (i : Nat) (st ex u0 : String) :
    (mkScanRecord index lines i st ex u0).error_analysis =
      String.intercalate ("\n") (contextLines lines i) := rfl

theorem mkScanRecord_url (index : List (String × String))
    (lines : List String) (i : Nat) (st ex u0 : String) :
    (mkScanRecord index lines i st ex u0).url =
      (if (findTestCase lines i).getD ("") = "" then u0
       else
        match dictGet? index ((findTestCase lines i).getD ("")) with
        | some u => u
        | none => u0) := rfl

theorem scanLine_eq_fail (index : List (String × String)) (lines : List String)
    (i : Nat) (line st ex u : String) (h : failMatch line = some (st, ex, u)) :
    scanLine index lines i line = some (mkScanRecord index lines i st ex u) := by
  unfold scanLine; rw [h]

theorem scanLine_eq_alt (index : List (String × String)) (lines : List String)
    (i : Nat) (line n m : String) (hf : failMatch line = none)
    (ha : altMatch line = some (n, m)) :
    scanLine index lines i line =
      some (mkScanRecord index lines i m n ("URL Not Found")) := by
  unfold scanLine; rw [hf, ha]

theorem scanLine_cases (index : List (String × String)) (lines : List String)
    (i : Nat) (line : String) (r : FailureRecord)
    (h : scanLine index lines i line = some r) :
    ∃ st ex u0, r = mkScanRecord index lines i st ex u0 := by
  unfold scanLine at h
  cases hf : failMatch line with
  | some t =>
    rw [hf] at h
    obtain ⟨st, ex, u⟩ := t
    exact ⟨st, ex, u, (Option.some.inj h).symm⟩
  | none =>
    rw [hf] at h
    cases ha : altMatch line with
    | some p =>
      rw [ha] at h
      obtain ⟨n, m⟩ := p
      exact ⟨m, n, ("URL Not Found"), (Option.some.inj h).symm⟩
    | none => rw [ha] at h; cases h

/-- First-match characterisation of `findSome?` over an index range. -/
theorem findSome?_range'_some {β : Type} (f : Nat → Option β) :
    ∀ (n s : Nat) (b : β), (List.range' s n).findSome? f = some b →
      ∃ j, s ≤ j ∧ j < s + n ∧ f j = some b ∧
        ∀ jj, s ≤ jj → jj < j → f jj = none := by
  intro n
  induction n with
  | zero => intro s b h; simp [List.range'] at h
  | succ n ih =>
    intro s b h
    rw [List.range'_succ, List.findSome?_cons] at h
    cases hf : f s with
    | some v =>
      rw [hf] at h
      refine ⟨s, Nat.le_refl s, by omega, ?_, ?_⟩
      · rw [hf]; exact h
      · intro jj h1 h2; omega
    | none =>
      rw [hf] at h
      obtain ⟨j, hj1, hj2, hj3, hj4⟩ := ih (s + 1) b h
      refine ⟨j, by omega, by omega, hj3, ?_⟩
      intro jj h1 h2
      rcases Nat.eq_or_lt_of_le h1 with he | hl
      · rw [← he]; exact hf
      · exact hj4 jj hl h2

theorem findSome?_range'_none {β : Type} (f : Nat → Option β) :
    ∀ (n s : Nat), (List.range' s n).findSome? f = none →
      ∀ j, s ≤ j → j < s + n → f j = none := by
  intro n
  induction n with
  | zero => intro s _ j h1 h2; omega
  | succ n ih =>
    intro s h j h1 h2
    rw [List.range'_succ, List.findSome?_cons] at h
    cases hf : f s with
    | some v => rw [hf] at h; cases h
    | none =>
      rw [hf] at h
      rcases Nat.eq_or_lt_of_le h1 with he | hl
      · rw [← he]; exact hf
      · exact ih (s + 1) h j hl (by omega)

/-- The context window of the source (an index loop) equals the slice
`lines[i : min(len, i+8)]` of the spec. -/
theorem range'_map_getD (xs : List String) :
    ∀ (n s : Nat), s + n ≤ xs.length →
      (List.range' s n).map (fun j => xs.getD j ("")) = (xs.drop s).take n := by
  intro n
  induction n with
  | zero => intro s _; simp [List.range']
  | succ n ih =>
    intro s h
    have hs : s < xs.length := by omega
    rw [List.range'_succ, List.map_cons, ih (s + 1) (by omega),
      List.drop_eq_getElem_cons hs, List.take_succ_cons,
      List.getD_eq_getElem xs ("") hs]

theorem contextLines_eq (lines : List String) (i : Nat) :
    contextLines lines i = ((lines.drop i).take 8).filter (fun l => !pyBlank l) := by
  unfold contextLines
  by_cases h : i ≤ lines.length
  · rw [range'_map_getD lines (min lines.length (i + 8) - i) i (by omega)]
    by_cases h8 : i + 8 ≤ lines.length
    · have : min lines.length (i + 8) - i = 8 := by omega
      rw [this]
    · have h1 : min lines.length (i + 8) - i = lines.length - i := by omega
      have e1 : (lines.drop i).take (lines.length - i) = lines.drop i :=
        List.take_of_length_le (le_of_eq (List.length_drop i lines))
      have e2 : (lines.drop i).take 8 = lines.drop i :=
        List.take_of_length_le (by rw [List.length_drop]; omega)
      rw [h1, e1, e2]
  · have h1 : min lines.length (i + 8) - i = 0 := by omega
    have h2 : lines.drop i = [] := List.drop_eq_nil_of_le (by omega)
    rw [h1, h2]
    simp [List.range']

/-! ### C3, C4, C9 -/

/-- C3: a line matched by the terse form (b) and not by form (a) yields a
record whose status_info is "HTTP M (expected N)" where N is the first
captured number of form (b) (the expected status) and M the second (the
observed status); absent an index override its url is the sentinel
"URL Not Found".  For form (a) the first captured status is the observed one
and the second the expected one. -/
theorem C3_group_order :
    (∀ (index : List (String × String)) (lines : List String) (i : Nat)
        (line n m : String),
      failMatch line = none → altMatch line = some (n, m) →
      ((findTestCase lines i).all fun t => (dictGet? index t).isNone) = true →
      ∃ r, scanLine index lines i line = some r ∧
        r.status_info = ("HTTP ") ++ m ++ (" (expected ") ++ n ++ (")") ∧
        r.url = ("URL Not Found")) ∧
    (∀ (index : List (String × String)) (lines : List String) (i : Nat)
        (line st ex u : String),
      failMatch line = some (st, ex, u) →
      ∃ r, scanLine index lines i line = some r ∧
        r.status_info = ("HTTP ") ++ st ++ (" (expected ") ++ ex ++ (")")) := by
  constructor
  · intro index lines i line n m hf ha hov
    refine ⟨_, scanLine_eq_alt index lines i line n m hf ha, rfl, ?_⟩
    rw [mkScanRecord_url]
    cases hft : findTestCase lines i with
    | none => rfl
    | some t =>
      rw [hft] at hov
      rw [Option.all_some] at hov
      have hnone : dictGet? index t = none := Option.isNone_iff_eq_none.mp hov
      simp only [Option.getD_some]
      by_cases ht : t = ""
      · rw [if_pos ht]
      · rw [if_neg ht, hnone]
  · intro index lines i line st ex u hfail
    exact ⟨_, scanLine_eq_fail index lines i line st ex u hfail, rfl⟩

theorem C3_group_order_witness :
    ∃ r, scanLine [] [("Expected : 404; But it was :500")] 0
        ("Expected : 404; But it was :500") = some r ∧
      r.status_info = ("HTTP ") ++ ("500") ++ (" (expected ") ++ ("404") ++ (")") ∧
      r.url = ("URL Not Found") :=
  C3_group_order.1 [] [("Expected : 404; But it was :500")] 0
    ("Expected : 404; But it was :500") ("404") ("500") rfl rfl rfl

/-- C4: the testcase bound by the proximity search is either empty with no
identifier-chain match anywhere in the window
`[max(0, i-5), min(len, i+15))`, or the identifier extracted at the first
line of that window (in increasing index order) where the chain matches;
it is never taken from a line outside the window. -/
theorem C4_window_binding (index : List (String × String)) (lines : List String)
    (i : Nat) (line : String) (r : FailureRecord)
    (h : scanLine index lines i line = some r) :
    (r.testcase = ("") ∧ ∀ j, i - 5 ≤ j → j < min lines.length (i + 15) →
        extractCaseId (lines.getD j ("")) = none) ∨
    (∃ j, i - 5 ≤ j ∧ j < min lines.length (i + 15) ∧
        extractCaseId (lines.getD j ("")) = some r.testcase ∧
        ∀ jj, i - 5 ≤ jj → jj < j → extractCaseId (lines.getD jj ("")) = none) := by
  obtain ⟨st, ex, u0, rfl⟩ := scanLine_cases index lines i line r h
  rw [mkScanRecord_testcase]
  cases hft : findTestCase lines i with
  | none =>
    left
    refine ⟨rfl, ?_⟩
    intro j h1 h2
    unfold findTestCase windowIdxs at hft
    exact findSome?_range'_none (fun j => extractCaseId (lines.getD j ("")))
      (min lines.length (i + 15) - (i - 5)) (i - 5) hft j h1 (by omega)
  | some t =>
    right
    unfold findTestCase windowIdxs at hft
    obtain ⟨j, hj1, hj2, hj3, hj4⟩ :=
      findSome?_range'_some (fun j => extractCaseId (lines.getD j ("")))
        (min lines.length (i + 15) - (i - 5)) (i - 5) t hft
    exact ⟨j, hj1, by omega, hj3, hj4⟩

theorem C4_window_binding_witness :
    (({ status_info := ("HTTP 500 (expected 200)"), testcase := ("TC-9")
      , url := ("URL Not Found")
      , error_analysis :=
          ("Expected : 200; But it was :500\nTC-9 foo") } :
        FailureRecord).testcase = ("") ∧
      ∀ j, 0 - 5 ≤ j →
        j < min (["Expected : 200; But it was :500", "TC-9 foo"] :
            List String).length (0 + 15) →
        extractCaseId ((["Expected : 200; But it was :500", "TC-9 foo"] :
            List String).getD j ("")) = none) ∨
    (∃ j, 0 - 5 ≤ j ∧
      j < min (["Expected : 200; But it was :500", "TC-9 foo"] :
          List String).length (0 + 15) ∧
      extractCaseId ((["Expected : 200; But it was :500", "TC-9 foo"] :
          List String).getD j ("")) =
        some ({ status_info := ("HTTP 500 (expected 200)"), testcase := ("TC-9")
              , url := ("URL Not Found")
              , error_analysis :=
                  ("Expected : 200; But it was :500\nTC-9 foo") } :
          FailureRecord).testcase ∧
      ∀ jj, 0 - 5 ≤ jj → jj < j →
        extractCaseId ((["Expected : 200; But it was :500", "TC-9 foo"] :
            List String).getD jj ("")) = none) :=
  C4_window_binding [] ["Expected : 200; But it was :500", "TC-9 foo"] 0
    ("Expected : 200; But it was :500") _ rfl

/-- C9: the record's error_analysis is the newline-join of the non-blank
lines among indices `i` to `min(len, i+8)` (exclusive), in order; the kept
list has at most 8 lines and every kept line is non-blank (so the joined
context never begins with a blank line). -/
theorem C9_error_analysis (index : List (String × String)) (lines : List String)
    (i : Nat) (line : String) (r : FailureRecord)
    (h : scanLine index lines i line = some r) :
    r.error_analysis =
      String.intercalate ("\n")
        (((lines.drop i).take 8).filter (fun l => !pyBlank l)) ∧
    (((lines.drop i).take 8).filter (fun l => !pyBlank l)).length ≤ 8 ∧
    ∀ l ∈ ((lines.drop i).take 8).filter (fun l => !pyBlank l),
      pyBlank l = false := by
  obtain ⟨st, ex, u0, rfl⟩ := scanLine_cases index lines i line r h
  refine ⟨?_, ?_, ?_⟩
  · rw [mkScanRecord_error_analysis, contextLines_eq]
  · calc (((lines.drop i).take 8).filter (fun l => !pyBlank l)).length
        ≤ ((lines.drop i).take 8).length := List.length_filter_le _ _
      _ ≤ 8 := List.length_take_le 8 (lines.drop i)
  · intro l hl
    have := List.of_mem_filter hl
    simpa using this

theorem C9_error_analysis_witness :
    ({ status_info := ("HTTP 2 (expected 1)"), testcase := ("")
     , url := ("URL Not Found")
     , error_analysis := ("Expected : 1; But it was :2\nx") } :
        FailureRecord).error_analysis =
      String.intercalate ("\n")
        ((((["Expected : 1; But it was :2", "", "x"] : List String).drop 0).take
            8).filter (fun l => !pyBlank l)) ∧
    (((((["Expected : 1; But it was :2", "", "x"] : List String).drop 0).take
          8).filter (fun l => !pyBlank l)).length ≤ 8) ∧
    ∀ l ∈ ((((["Expected : 1; But it was :2", "", "x"] : List String).drop
        0).take 8).filter (fun l => !pyBlank l)), pyBlank l = false :=
  C9_error_analysis [] ["Expected : 1; But it was :2", "", "x"] 0
    ("Expected : 1; But it was :2") _ rfl

/-! ### C5: URL precedence -/

/-- The indexed URL is authoritative for a record: whenever its testcase is
truthy and a key of the index, its url is the indexed one. -/
def urlOK (index : List (String × String)) (r : FailureRecord) : Prop :=
  r.testcase ≠ "" → ∀ u, dictGet? index r.testcase = some u → r.url = u

theorem mkScanRecord_urlOK (index : List (String × String))
    (lines : List String) (i : Nat) (st ex u0 : String) :
    urlOK index (mkScanRecord index lines i st ex u0) := by
  intro hne u hu
  rw [mkScanRecord_testcase] at hne hu
  rw [mkScanRecord_url, if_neg hne, hu]

theorem scanFailures_urlOK (index : List (String × String))
    (lines : List String) (r : FailureRecord)
    (hr : r ∈ scanFailures index lines) : urlOK index r := by
  unfold scanFailures at hr
  obtain ⟨p, _, hp⟩ := List.mem_filterMap.mp hr
  obtain ⟨st, ex, u0, rfl⟩ := scanLine_cases index lines p.1 p.2 r hp
  exact mkScanRecord_urlOK index lines p.1 st ex u0

theorem orphanFold_urlOK (index : List (String × String)) :
    ∀ (blocks : List Block) (st : List FailureRecord × List String),
      (∀ g ∈ st.1, urlOK index g) →
      ∀ g ∈ (blocks.foldl (orphanStep index) st).1, urlOK index g := by
  intro blocks
  induction blocks with
  | nil => intro st hst g hg; exact hst g hg
  | cons b bs ih =>
    intro st hst g hg
    rw [List.foldl_cons] at hg
    refine ih (orphanStep index st b) ?_ g hg
    intro g' hg'
    unfold orphanStep at hg'
    cases hc : extractCaseId b.raw_text with
    | none => rw [hc] at hg'; exact hst g' hg'
    | some cid =>
      rw [hc] at hg'
      simp only [] at hg'
      by_cases hcond : cid ≠ "" ∧ cid ∉ st.2
      · rw [if_pos hcond] at hg'
        rcases List.mem_append.mp hg' with h3 | h3
        · exact hst g' h3
        · rw [List.mem_singleton.mp h3]
          intro _ u hu
          simp only at hu ⊢
          rw [hu]
          rfl
      · rw [if_neg hcond] at hg'; exact hst g' hg'

theorem dedupPy_fst_sources :
    ∀ (rs : List FailureRecord)
      (st : List (String × FailureRecord) × List FailureRecord)
      (p : String × FailureRecord),
      p ∈ (rs.foldl dedupStep st).1 → p ∈ st.1 ∨ p.2 ∈ rs := by
  intro rs
  induction rs with
  | nil => intro st p h; exact Or.inl h
  | cons f fs ih =>
    intro st p h
    rw [List.foldl_cons] at h
    rcases ih (dedupStep st f) p h with h1 | h2
    · unfold dedupStep at h1
      by_cases he : f.testcase = ""
      · rw [if_pos he] at h1; exact Or.inl h1
      · rw [if_neg he] at h1
        by_cases hf : ((st.1.find? (fun q => decide (q.1 = dedupKey f))).isSome :
            Bool) = true
        · rw [if_pos hf] at h1; exact Or.inl h1
        · rw [if_neg hf] at h1
          rcases List.mem_append.mp h1 with h3 | h3
          · exact Or.inl h3
          · right
            rw [List.mem_singleton.mp h3]
            exact List.mem_cons_self f fs
    · exact Or.inr (List.mem_cons_of_mem f h2)

theorem uniqueResults_subset (rs : List FailureRecord) (r : FailureRecord)
    (hr : r ∈ uniqueResults rs) : r ∈ rs := by
  unfold uniqueResults dedupPy at hr
  obtain ⟨p, hp, hpr⟩ := List.mem_map.mp hr
  rcases dedupPy_fst_sources rs ([], []) p hp with h1 | h2
  · cases h1
  · rw [← hpr]; exact h2

/-- C5: every record of the final output whose (non-empty) testcase is a key
of the IdentifierIndex carries the indexed URL — the index overrides any
inline URL for scanner records, and orphan records resolve through the index
too. -/
theorem C5_index_url_precedence (doc : Doc) (r : FailureRecord)
    (hr : r ∈ (parse_single_file doc).failures) (hne : r.testcase ≠ (""))
    (u : String) (hu : dictGet? (buildIndex doc.blocks) r.testcase = some u) :
    r.url = u := by
  have hr' : r ∈ addOrphans (buildIndex doc.blocks) doc.blocks
      (scanFailures (buildIndex doc.blocks) doc.lines) := by
    apply uniqueResults_subset
    exact hr
  have hok : urlOK (buildIndex doc.blocks) r := by
    refine orphanFold_urlOK (buildIndex doc.blocks) doc.blocks _ ?_ r hr'
    intro g hg
    exact scanFailures_urlOK (buildIndex doc.blocks) doc.lines g hg
  exact hok hne u hu

theorem C5_index_url_precedence_witness :
    ({ status_info := ("HTTP 500 (expected 200)"), testcase := ("TC-1")
     , url := ("http://a/1")
     , error_analysis := ("Expected : 200; But it was :500\nTC-1.feature run") } :
        FailureRecord) ∈
      (parse_single_file
        { blocks := [ { raw_text := ("TC-1.feature")
                      , output_texts := [("go http://a/1 now")]
                      , text_lines := [("TC-1 detail")] } ]
        , lines := [ ("Expected : 200; But it was :500")
                   , ("TC-1.feature run") ] }).failures ∧
    ({ status_info := ("HTTP 500 (expected 200)"), testcase := ("TC-1")
     , url := ("http://a/1")
     , error_analysis := ("Expected : 200; But it was :500\nTC-1.feature run") } :
        FailureRecord).url = ("http://a/1") := by
  constructor
  · exact List.mem_singleton.mpr rfl
  · exact C5_index_url_precedence
      { blocks := [ { raw_text := ("TC-1.feature")
                    , output_texts := [("go http://a/1 now")]
                    , text_lines := [("TC-1 detail")] } ]
      , lines := [ ("Expected : 200; But it was :500")
                 , ("TC-1.feature run") ] }
      _ (List.mem_singleton.mpr rfl) (by decide) ("http://a/1") rfl

/-! ### Deduplication machinery for C6 and C8

`dedupList ks rs` is the list of records kept by STEP 4 when the dict
already contains the keys `ks`; it is related to the fold of the source by
`dedup_foldl_eq` below. -/

def dedupList : List String → List FailureRecord → List FailureRecord
  | _, [] => []
  | ks, f :: fs =>
    if f.testcase = "" then dedupList ks fs
    else if dedupKey f ∈ ks then dedupList ks fs
    else f :: dedupList (dedupKey f :: ks) fs

theorem dedupList_cons_empty (ks : List String) (f : FailureRecord)
    (fs : List FailureRecord) (he : f.testcase = "") :
    dedupList ks (f :: fs) = dedupList ks fs := by
  show (if f.testcase = "" then dedupList ks fs
    else if dedupKey f ∈ ks then dedupList ks fs
    else f :: dedupList (dedupKey f :: ks) fs) = dedupList ks fs
  rw [if_pos he]

theorem dedupList_cons_dup (ks : List String) (f : FailureRecord)
    (fs : List FailureRecord) (he : ¬ f.testcase = "")
    (hk : dedupKey f ∈ ks) :
    dedupList ks (f :: fs) = dedupList ks fs := by
  show (if f.testcase = "" then dedupList ks fs
    else if dedupKey f ∈ ks then dedupList ks fs
    else f :: dedupList (dedupKey f :: ks) fs) = dedupList ks fs
  rw [if_neg he, if_pos hk]

theorem dedupList_cons_new (ks : List String) (f : FailureRecord)
    (fs : List FailureRecord) (he : ¬ f.testcase = "")
    (hk : dedupKey f ∉ ks) :
    dedupList ks (f :: fs) = f :: dedupList (dedupKey f :: ks) fs := by
  show (if f.testcase = "" then dedupList ks fs
    else if dedupKey f ∈ ks then dedupList ks fs
    else f :: dedupList (dedupKey f :: ks) fs) =
    f :: dedupList (dedupKey f :: ks) fs
  rw [if_neg he, if_neg hk]

theorem dedupList_congr :
    ∀ (fs : List FailureRecord) (ks ks' : List String),
      (∀ x, x ∈ ks ↔ x ∈ ks') → dedupList ks fs = dedupList ks' fs := by
  intro fs
  induction fs with
  | nil => intro ks ks' _; rfl
  | cons f fs ih =>
    intro ks ks' h
    by_cases he : f.testcase = ""
    · rw [dedupList_cons_empty ks f fs he, dedupList_cons_empty ks' f fs he]
      exact ih ks ks' h
    · by_cases hk : dedupKey f ∈ ks
      · rw [dedupList_cons_dup ks f fs he hk,
          dedupList_cons_dup ks' f fs he ((h (dedupKey f)).mp hk)]
        exact ih ks ks' h
      · have hk' : dedupKey f ∉ ks' := fun hh => hk ((h (dedupKey f)).mpr hh)
        rw [dedupList_cons_new ks f fs he hk,
          dedupList_cons_new ks' f fs he hk']
        rw [ih (dedupKey f :: ks) (dedupKey f :: ks')
          (fun x => by rw [List.mem_cons, List.mem_cons, h x])]

theorem find?_key_isSome (uf : List (String × FailureRecord)) (k : String) :
    ((uf.find? (fun q => decide (q.1 = k))).isSome = true) ↔
      k ∈ uf.map (fun p => p.1) := by
  induction uf with
  | nil => simp [List.find?]
  | cons hd tl ih =>
    obtain ⟨k', v'⟩ := hd
    by_cases h : k' = k
    · simp [List.find?_cons, h]
    · have h' : ¬ k = k' := fun hh => h hh.symm
      simp [List.find?_cons, h, h', ih]

/-- STEP 4's fold, restricted to the kept (keyed) records, computes
`dedupList` of the keys already present. -/
theorem dedup_foldl_eq :
    ∀ (rs : List FailureRecord) (uf : List (String × FailureRecord))
      (fw : List FailureRecord),
      ((rs.foldl dedupStep (uf, fw)).1).map (fun p => p.2) =
        uf.map (fun p => p.2) ++ dedupList (uf.map (fun p => p.1)) rs := by
  intro rs
  induction rs with
  | nil =>
    intro uf fw
    rw [List.foldl_nil]
    exact (List.append_nil (uf.map (fun p => p.2))).symm
  | cons f fs ih =>
    intro uf fw
    rw [List.foldl_cons]
    by_cases he : f.testcase = ""
    · have hstep : dedupStep (uf, fw) f = (uf, fw ++ [f]) := by
        unfold dedupStep; rw [if_pos he]
      rw [hstep, ih, dedupList_cons_empty _ f fs he]
    · by_cases hf : dedupKey f ∈ uf.map (fun p => p.1)
      · have hfind := (find?_key_isSome uf (dedupKey f)).mpr hf
        have hstep : dedupStep (uf, fw) f = (uf, fw) := by
          unfold dedupStep; rw [if_neg he, if_pos hfind]
        rw [hstep, ih, dedupList_cons_dup _ f fs he hf]
      · have hfind : ¬ ((uf.find? (fun q => decide (q.1 = dedupKey f))).isSome
            = true) := fun hh => hf ((find?_key_isSome uf (dedupKey f)).mp hh)
        have hstep : dedupStep (uf, fw) f = (uf ++ [(dedupKey f, f)], fw) := by
          unfold dedupStep; rw [if_neg he, if_neg hfind]
        have hvals : (uf ++ [(dedupKey f, f)]).map (fun p => p.2) =
            uf.map (fun p => p.2) ++ [f] := by simp
        have hkeys : (uf ++ [(dedupKey f, f)]).map (fun p => p.1) =
            uf.map (fun p => p.1) ++ [dedupKey f] := by simp
        rw [hstep, ih, hvals, hkeys, dedupList_cons_new _ f fs he hf,
          dedupList_congr fs (uf.map (fun p => p.1) ++ [dedupKey f])
            (dedupKey f :: uf.map (fun p => p.1))
            (fun x => by
              rw [List.mem_append, List.mem_singleton, List.mem_cons]
              exact or_comm),
          List.append_assoc]
        rfl

theorem uniqueResults_eq_dedupList (rs : List FailureRecord) :
    uniqueResults rs = dedupList [] rs := by
  unfold uniqueResults dedupPy
  rw [dedup_foldl_eq rs [] []]
  rfl

theorem dedupList_mem :
    ∀ (fs : List FailureRecord) (ks : List String) (r : FailureRecord),
      r ∈ dedupList ks fs → r ∈ fs ∧ r.testcase ≠ "" ∧ dedupKey r ∉ ks := by
  intro fs
  induction fs with
  | nil => intro ks r h; cases h
  | cons f fs ih =>
    intro ks r h
    by_cases he : f.testcase = ""
    · rw [dedupList_cons_empty ks f fs he] at h
      obtain ⟨h1, h2, h3⟩ := ih ks r h
      exact ⟨List.mem_cons_of_mem f h1, h2, h3⟩
    · by_cases hk : dedupKey f ∈ ks
      · rw [dedupList_cons_dup ks f fs he hk] at h
        obtain ⟨h1, h2, h3⟩ := ih ks r h
        exact ⟨List.mem_cons_of_mem f h1, h2, h3⟩
      · rw [dedupList_cons_new ks f fs he hk] at h
        rcases List.mem_cons.mp h with h1 | h1
        · rw [h1]; exact ⟨List.mem_cons_self f fs, he, hk⟩
        · obtain ⟨h2, h3, h4⟩ := ih (dedupKey f :: ks) r h1
          exact ⟨List.mem_cons_of_mem f h2, h3,
            fun hh => h4 (List.mem_cons_of_mem (dedupKey f) hh)⟩

theorem dedupList_keys_pairwise :
    ∀ (fs : List FailureRecord) (ks : List String),
      (dedupList ks fs).Pairwise (fun a b => dedupKey a ≠ dedupKey b) := by
  intro fs
  induction fs with
  | nil => intro ks; exact List.Pairwise.nil
  | cons f fs ih =>
    intro ks
    by_cases he : f.testcase = ""
    · rw [dedupList_cons_empty ks f fs he]; exact ih ks
    · by_cases hk : dedupKey f ∈ ks
      · rw [dedupList_cons_dup ks f fs he hk]; exact ih ks
      · rw [dedupList_cons_new ks f fs he hk]
        refine List.Pairwise.cons ?_ (ih (dedupKey f :: ks))
        intro x hx heq
        have := (dedupList_mem fs (dedupKey f :: ks) x hx).2.2
        exact this (by rw [← heq]; exact List.mem_cons_self _ _)

theorem dedupList_fixpoint :
    ∀ (out : List FailureRecord) (ks : List String),
      (∀ f ∈ out, f.testcase ≠ "") →
      out.Pairwise (fun a b => dedupKey a ≠ dedupKey b) →
      (∀ f ∈ out, dedupKey f ∉ ks) →
      dedupList ks out = out := by
  intro out
  induction out with
  | nil => intro ks _ _ _; rfl
  | cons f rest ih =>
    intro ks h1 h2 h3
    rw [dedupList_cons_new ks f rest (h1 f (List.mem_cons_self f rest))
      (h3 f (List.mem_cons_self f rest))]
    rw [ih (dedupKey f :: ks)
      (fun g hg => h1 g (List.mem_cons_of_mem f hg))
      (List.Pairwise.of_cons h2)
      (fun g hg => by
        intro hh
        rcases List.mem_cons.mp hh with hh1 | hh1
        · exact (List.rel_of_pairwise_cons h2 hg) hh1.symm
        · exact h3 g (List.mem_cons_of_mem f hg) hh1)]

/-- C8: the deduplication-and-aggregation step is idempotent — applied to
its own `failures` output it returns the same failures, total_unique and
status_summary. -/
theorem C8_dedup_idempotent (rs : List FailureRecord) :
    dedupAggregate (dedupAggregate rs).failures = dedupAggregate rs := by
  have hfix : uniqueResults (uniqueResults rs) = uniqueResults rs := by
    rw [uniqueResults_eq_dedupList rs, uniqueResults_eq_dedupList]
    exact dedupList_fixpoint (dedupList [] rs) []
      (fun f hf => (dedupList_mem rs [] f hf).2.1)
      (dedupList_keys_pairwise rs [])
      (fun f _ hh => by cases hh)
  show dedupAggregate (uniqueResults rs) = dedupAggregate rs
  unfold dedupAggregate
  rw [hfix]

/-! ### C6: key uniqueness and first-wins -/

theorem append_underscore_inj :
    ∀ (l1 l2 r1 r2 : List Char), ('_') ∉ l1 → ('_') ∉ l2 →
      l1 ++ '_' :: r1 = l2 ++ '_' :: r2 → l1 = l2 ∧ r1 = r2 := by
  intro l1
  induction l1 with
  | nil =>
    intro l2 r1 r2 _ h2 heq
    cases l2 with
    | nil =>
      rw [List.nil_append, List.nil_append] at heq
      exact ⟨rfl, (List.cons.inj heq).2⟩
    | cons c l2' =>
      rw [List.nil_append, List.cons_append] at heq
      exfalso
      apply h2
      rw [(List.cons.inj heq).1]
      exact List.mem_cons_self c l2'
  | cons c l1' ih =>
    intro l2 r1 r2 h1 h2 heq
    cases l2 with
    | nil =>
      rw [List.nil_append, List.cons_append] at heq
      exfalso
      apply h1
      rw [← (List.cons.inj heq).1]
      exact List.mem_cons_self c l1'
    | cons d l2' =>
      rw [List.cons_append, List.cons_append] at heq
      obtain ⟨hcd, htl⟩ := List.cons.inj heq
      obtain ⟨ha, hb⟩ := ih l2' r1 r2
        (fun hh => h1 (List.mem_cons_of_mem c hh))
        (fun hh => h2 (List.mem_cons_of_mem d hh)) htl
      exact ⟨by rw [hcd, ha], hb⟩

theorem dedupKey_data (a : FailureRecord) :
    (dedupKey a).data = a.testcase.data ++ '_' :: a.status_info.data := by
  unfold dedupKey
  rw [String.data_append, String.data_append, List.append_assoc]
  rfl

theorem dedupKey_inj (a b : FailureRecord) (ha : ('_') ∉ a.testcase.data)
    (hb : ('_') ∉ b.testcase.data) (h : dedupKey a = dedupKey b) :
    a.testcase = b.testcase ∧ a.status_info = b.status_info := by
  have hd := congrArg String.data h
  rw [dedupKey_data, dedupKey_data] at hd
  obtain ⟨h1, h2⟩ := append_underscore_inj _ _ _ _ ha hb hd
  exact ⟨String.ext h1, String.ext h2⟩

theorem dedupList_first_wins :
    ∀ (fs : List FailureRecord) (ks : List String) (r' : FailureRecord),
      (∀ g ∈ fs, ('_') ∉ g.testcase.data) → ('_') ∉ r'.testcase.data →
      r' ∈ fs → r'.testcase ≠ "" → dedupKey r' ∉ ks →
      ∃ r, r ∈ dedupList ks fs ∧ r.testcase = r'.testcase ∧
        r.status_info = r'.status_info ∧
        (fs.filter (fun g => decide (g.testcase = r'.testcase) &&
          decide (g.status_info = r'.status_info))).head? = some r := by
  intro fs
  induction fs with
  | nil => intro ks r' _ _ hmem; cases hmem
  | cons f fs ih =>
    intro ks r' hU hU' hmem hne hks
    by_cases hpair : f.testcase = r'.testcase ∧ f.status_info = r'.status_info
    · have hfne : f.testcase ≠ "" := by rw [hpair.1]; exact hne
      have hfkey : dedupKey f = dedupKey r' := by
        unfold dedupKey; rw [hpair.1, hpair.2]
      have hfks : dedupKey f ∉ ks := by rw [hfkey]; exact hks
      refine ⟨f, ?_, hpair.1, hpair.2, ?_⟩
      · rw [dedupList_cons_new ks f fs hfne hfks]
        exact List.mem_cons_self f _
      · rw [List.filter_cons,
          if_pos (by rw [decide_eq_true hpair.1, decide_eq_true hpair.2]; rfl)]
        rfl
    · have hmem' : r' ∈ fs := by
        rcases List.mem_cons.mp hmem with hh | hh
        · exfalso; apply hpair; rw [← hh]; exact ⟨rfl, rfl⟩
        · exact hh
      have hpf : (decide (f.testcase = r'.testcase) &&
          decide (f.status_info = r'.status_info)) = false := by
        rcases Decidable.not_and_iff_or_not.mp hpair with hh | hh
        · rw [decide_eq_false hh, Bool.false_and]
        · rw [decide_eq_false hh, Bool.and_false]
      have hfilter : ((f :: fs).filter (fun g => decide (g.testcase = r'.testcase)
          && decide (g.status_info = r'.status_info))) =
          fs.filter (fun g => decide (g.testcase = r'.testcase) &&
            decide (g.status_info = r'.status_info)) := by
        rw [List.filter_cons, if_neg]
        rw [hpf]
        exact Bool.false_ne_true
      rw [hfilter]
      by_cases he : f.testcase = ""
      · rw [dedupList_cons_empty ks f fs he]
        exact ih ks r' (fun g hg => hU g (List.mem_cons_of_mem f hg)) hU'
          hmem' hne hks
      · by_cases hk : dedupKey f ∈ ks
        · rw [dedupList_cons_dup ks f fs he hk]
          exact ih ks r' (fun g hg => hU g (List.mem_cons_of_mem f hg)) hU'
            hmem' hne hks
        · rw [dedupList_cons_new ks f fs he hk]
          have hneq : dedupKey r' ≠ dedupKey f := by
            intro hh
            obtain ⟨h1, h2⟩ := dedupKey_inj r' f hU'
              (hU f (List.mem_cons_self f fs)) hh
            exact hpair ⟨h1.symm, h2.symm⟩
          obtain ⟨r, hr1, hr2, hr3, hr4⟩ :=
            ih (dedupKey f :: ks) r'
              (fun g hg => hU g (List.mem_cons_of_mem f hg)) hU' hmem' hne
              (fun hh => by
                rcases List.mem_cons.mp hh with hh1 | hh1
                · exact hneq hh1
                · exact hks hh1)
          exact ⟨r, List.mem_cons_of_mem f hr1, hr2, hr3, hr4⟩

/-- C6: in the final output any two records with non-empty testcases have
distinct (testcase, status_info) pairs, and every pre-deduplication record
with a non-empty testcase is represented in the output by the *first*
appended record carrying its (testcase, status_info) pair.  The hypothesis
that testcases contain no underscore holds for every testcase the pattern
chain can extract (its matches contain only letters, one hyphen and
digits). -/
theorem C6_dedup_key_uniqueness (rs : List FailureRecord)
    (hU : ∀ g ∈ rs, ('_') ∉ g.testcase.data) :
    (uniqueResults rs).Pairwise
      (fun a b => (a.testcase, a.status_info) ≠ (b.testcase, b.status_info)) ∧
    ∀ r' ∈ rs, r'.testcase ≠ ("") →
      ∃ r, r ∈ uniqueResults rs ∧ r.testcase = r'.testcase ∧
        r.status_info = r'.status_info ∧
        (rs.filter (fun g => decide (g.testcase = r'.testcase) &&
          decide (g.status_info = r'.status_info))).head? = some r := by
  constructor
  · rw [uniqueResults_eq_dedupList]
    refine (dedupList_keys_pairwise rs []).imp ?_
    intro a b hne hpq
    apply hne
    obtain ⟨h1, h2⟩ := Prod.mk.inj hpq
    unfold dedupKey
    rw [h1, h2]
  · intro r' hr' hne
    rw [uniqueResults_eq_dedupList]
    exact dedupList_first_wins rs [] r' hU (hU r' hr') hr' hne
      (fun hh => by cases hh)

theorem C6_dedup_key_uniqueness_witness :
    ∃ r, r ∈ uniqueResults
        [ { status_info := ("HTTP 404 (expected 200)"), testcase := ("TC-1")
          , url := ("u1"), error_analysis := ("e1") }
        , { status_info := ("HTTP 404 (expected 200)"), testcase := ("TC-1")
          , url := ("u2"), error_analysis := ("e2") } ] ∧
      r.testcase = ({ status_info := ("HTTP 404 (expected 200)")
                    , testcase := ("TC-1"), url := ("u2")
                    , error_analysis := ("e2") } : FailureRecord).testcase ∧
      r.status_info = ({ status_info := ("HTTP 404 (expected 200)")
                       , testcase := ("TC-1"), url := ("u2")
                       , error_analysis := ("e2") } : FailureRecord).status_info ∧
      ([ { status_info := ("HTTP 404 (expected 200)"), testcase := ("TC-1")
         , url := ("u1"), error_analysis := ("e1") }
       , { status_info := ("HTTP 404 (expected 200)"), testcase := ("TC-1")
         , url := ("u2"), error_analysis := ("e2") } ].filter
          (fun g => decide (g.testcase =
              ({ status_info := ("HTTP 404 (expected 200)")
               , testcase := ("TC-1"), url := ("u2")
               , error_analysis := ("e2") } : FailureRecord).testcase) &&
            decide (g.status_info =
              ({ status_info := ("HTTP 404 (expected 200)")
               , testcase := ("TC-1"), url := ("u2")
               , error_analysis := ("e2") } : FailureRecord).status_info))).head?
        = some r :=
  (C6_dedup_key_uniqueness
    [ { status_info := ("HTTP 404 (expected 200)"), testcase := ("TC-1")
      , url := ("u1"), error_analysis := ("e1") }
    , { status_info := ("HTTP 404 (expected 200)"), testcase := ("TC-1")
      , url := ("u2"), error_analysis := ("e2") } ]
    (by decide)).2
    { status_info := ("HTTP 404 (expected 200)"), testcase := ("TC-1")
    , url := ("u2"), error_analysis := ("e2") }
    (by decide) (by decide)

/-! ### C10: the strict-generic pattern is subsumed by the generic one -/

theorem identAt_mono (cs : List Char) (g : List Char)
    (h : identAt 2 cs = some g) : identAt 1 cs = some g := by
  unfold identAt at h ⊢
  by_cases hl : (cs.takeWhile Char.isAlpha).length < 2
  · rw [if_pos hl] at h; cases h
  · rw [if_neg hl] at h
    rw [if_neg (by omega)]
    exact h

theorem identSearchAux_cons (minLen : Nat) (prev : Option Char) (c : Char)
    (rest : List Char) :
    identSearchAux minLen prev (c :: rest) =
      (if (match prev with | none => true | some p => !isWordChar p) then
        match identAt minLen (c :: rest) with
        | some g => some g
        | none => identSearchAux minLen (some c) rest
      else identSearchAux minLen (some c) rest) := rfl

theorem identSearchAux_cons_true (minLen : Nat) (prev : Option Char) (c : Char)
    (rest : List Char)
    (hb : (match prev with | none => true | some p => !isWordChar p) = true) :
    identSearchAux minLen prev (c :: rest) =
      (match identAt minLen (c :: rest) with
       | some g => some g
       | none => identSearchAux minLen (some c) rest) := by
  rw [identSearchAux_cons, if_pos hb]

theorem identSearchAux_cons_false (minLen : Nat) (prev : Option Char) (c : Char)
    (rest : List Char)
    (hb : (match prev with | none => true | some p => !isWordChar p) = false) :
    identSearchAux minLen prev (c :: rest) =
      identSearchAux minLen (some c) rest := by
  rw [identSearchAux_cons, if_neg (by simp [hb])]

theorem identSearchAux_mono :
    ∀ (cs : List Char) (prev : Option Char) (g : List Char),
      identSearchAux 2 prev cs = some g →
      ∃ g', identSearchAux 1 prev cs = some g' := by
  intro cs
  induction cs with
  | nil => intro prev g h; cases h
  | cons c rest ih =>
    intro prev g h
    cases hbok : (match prev with | none => true | some p => !isWordChar p) with
    | true =>
      rw [identSearchAux_cons_true 2 prev c rest hbok] at h
      rw [identSearchAux_cons_true 1 prev c rest hbok]
      cases hm1 : identAt 1 (c :: rest) with
      | some y => exact ⟨y, rfl⟩
      | none =>
        cases hm2 : identAt 2 (c :: rest) with
        | some x =>
          have := identAt_mono (c :: rest) x hm2
          rw [hm1] at this; cases this
        | none =>
          rw [hm2] at h
          obtain ⟨g', hg'⟩ := ih (some c) g h
          exact ⟨g', hg'⟩
    | false =>
      rw [identSearchAux_cons_false 2 prev c rest hbok] at h
      rw [identSearchAux_cons_false 1 prev c rest hbok]
      exact ih (some c) g h

theorem additionalSearch_imp_testCase (s : String) (g : String)
    (h : additionalSearch s = some g) : ∃ g', testCaseSearch s = some g' := by
  unfold additionalSearch identSearch at h
  obtain ⟨l, hl, _⟩ := Option.map_eq_some'.mp h
  obtain ⟨g', hg'⟩ := identSearchAux_mono s.data none l hl
  refine ⟨String.mk g', ?_⟩
  unfold testCaseSearch identSearch
  rw [hg']
  rfl

/-- The two-pattern extraction chain of the spec's refinement claim:
feature-form, then generic, with the strict-generic fallback removed. -/
def extractCaseIdTwo (t : String) : Option String :=
  match featureSearch t with
  | some g => some g
  | none => testCaseSearch t

/-- C10: every text matched by `ADDITIONAL_PATTERN` is also matched by
`TEST_CASE_PATTERN`, so the third fallback branch of the extraction chain is
unreachable and the chain is extensionally the two-pattern chain (the same
chain is the one run by the block indexer, the proximity search and the
orphan pass). -/
theorem C10_strict_pattern_subsumed :
    (∀ (s g : String), additionalSearch s = some g →
      ∃ g', testCaseSearch s = some g') ∧
    (∀ t, extractCaseId t = extractCaseIdTwo t) := by
  constructor
  · exact additionalSearch_imp_testCase
  · intro t
    unfold extractCaseId extractCaseIdTwo
    cases hf : featureSearch t with
    | some g => rfl
    | none =>
      cases ht : testCaseSearch t with
      | some g => rfl
      | none =>
        cases ha : additionalSearch t with
        | none => rfl
        | some g =>
          obtain ⟨g', hg'⟩ := additionalSearch_imp_testCase t g ha
          rw [ht] at hg'; cases hg'

theorem C10_strict_pattern_subsumed_witness :
    ∃ g', testCaseSearch ("AB-1") = some g' :=
  C10_strict_pattern_subsumed.1 ("AB-1") ("AB-1") rfl

end CucumberReports
